import Mathlib

/-!
Verification of the Deirokay statement engine: a shallow embedding of the
statement classes (`BaseStatement`, `Unique`, `NotNull`, `RowCount`,
`Contain`, `StatisticInInterval`) together with proofs about their rule
logic.  Python dicts are modelled as insertion-ordered association lists,
floats as rationals, `np.inf` bounds by a dedicated `MaxOcc` type, and
Python exceptions by `Except`/`Option` results.
-/

set_option autoImplicit false

namespace Deirokay

/-! ### Python dict model

A Python `dict` is an insertion-ordered association list with unique keys.
`dictLookup` is `d[k]` / `k in d`; `dictSet` is `d[k] = v` (update in place
when the key exists, append otherwise). -/

def dictLookup {α β : Type} [DecidableEq α] (k : α) : List (α × β) → Option β
  | [] => none
  | (k', v) :: rest => if k' = k then some v else dictLookup k rest

def dictSet {α β : Type} [DecidableEq α] (d : List (α × β)) (k : α) (v : β) :
    List (α × β) :=
  match d with
  | [] => [(k, v)]
  | (k', v') :: rest =>
      if k' = k then (k, v) :: rest else (k', v') :: dictSet rest k v

/-- `d[k] = v` when the key is already present, a `KeyError` (modelled as
`none`) otherwise — the behaviour of `min_max_boundaries[value][...] = ...`
for a key that is absent. -/
def dictSetExisting {α β : Type} [DecidableEq α] (d : List (α × β)) (k : α)
    (v : β) : Option (List (α × β)) :=
  if (dictLookup k d).isSome then some (dictSet d k v) else none

/-! ### Contain: data model

`rule ∈ {'all', 'only', 'all_and_only'}`; `max_occurrences` may be the
per-rule default `np.inf`, modelled as `MaxOcc.inf`. -/

inductive Rule : Type
  | all
  | only
  | all_and_only
deriving DecidableEq, Repr

inductive MaxOcc : Type
  | fin (n : Nat)
  | inf
deriving DecidableEq, Repr

/-- `count <= max_occurrences` (anything is `<= np.inf`). -/
def MaxOcc.leCount (m : MaxOcc) (c : Nat) : Bool :=
  match m with
  | .fin k => c ≤ k
  | .inf => true

/-- `max_occurrences != 0` is false only for the literal bound `0`
(`np.inf != 0` holds). -/
def MaxOcc.isZero (m : MaxOcc) : Bool :=
  match m with
  | .fin 0 => true
  | _ => false

/-- One entry of `occurrences_per_value`: a group of values with optional
dedicated `min_occurrences` / `max_occurrences`. -/
structure OccurrenceGroup (α : Type) where
  values : List α
  min_occurrences : Option Nat
  max_occurrences : Option Nat
deriving DecidableEq, Repr

/-- The parsed options of a `Contain` statement (`values` already run
through the external type treater). -/
structure ContainOptions (α : Type) where
  rule : Rule
  values : List α
  min_occurrences : Option Nat
  max_occurrences : Option Nat
  occurrences_per_value : List (OccurrenceGroup α)
deriving DecidableEq, Repr

/-- Resolved `(min_occurrences, max_occurrences)` pair for one value. -/
structure Boundary where
  min_occurrences : Nat
  max_occurrences : MaxOcc
deriving DecidableEq, Repr

namespace Contain

/-- `min_occurrences_rule_default` of `_set_default_minmax_occurrences`. -/
def min_occurrences_rule_default (r : Rule) : Nat :=
  match r with
  | .all => 1
  | .only => 0
  | .all_and_only => 1

/-- `max_occurrences_rule_default` of `_set_default_minmax_occurrences`:
`np.inf` for every rule. -/
def max_occurrences_rule_default (_ : Rule) : MaxOcc := .inf

/-- `self.min_occurrences` after `_set_default_minmax_occurrences`. -/
def globalMin {α : Type} (o : ContainOptions α) : Nat :=
  match o.min_occurrences with
  | some m => m
  | none => min_occurrences_rule_default o.rule

/-- `self.max_occurrences` after `_set_default_minmax_occurrences`. -/
def globalMax {α : Type} (o : ContainOptions α) : MaxOcc :=
  match o.max_occurrences with
  | some m => .fin m
  | none => max_occurrences_rule_default o.rule

/-- The `(min_occurrences, max_occurrences)` pair assigned by one override
group: `occurrence.get('min_occurrences', self.min_occurrences)` and
`occurrence.get('max_occurrences', self.max_occurrences)`. -/
def groupBoundary {α : Type} (o : ContainOptions α) (g : OccurrenceGroup α) :
    Boundary :=
  ⟨match g.min_occurrences with
    | some m => m
    | none => globalMin o,
   match g.max_occurrences with
    | some m => .fin m
    | none => globalMax o⟩

/-- The dict after the "Global boundaries" pass of
`Contain._set_min_max_boundaries`: every value in `values` mapped to the
global pair. -/
def globalBoundaries {α : Type} [DecidableEq α] (o : ContainOptions α) :
    List (α × Boundary) :=
  o.values.foldl (fun d v => dictSet d v ⟨globalMin o, globalMax o⟩) []

/-- `Contain._set_min_max_boundaries`: a dict from value to boundary pair.
First every value in `values` is assigned the global pair; then each
override group re-assigns the pair for each of its values, each side
falling back to the global default when the group leaves it unset.
Assigning a value that is not already a key raises a `KeyError` (`none`). -/
def set_min_max_boundaries {α : Type} [DecidableEq α] (o : ContainOptions α) :
    Option (List (α × Boundary)) :=
  o.occurrences_per_value.foldlM
    (fun d g =>
      g.values.foldlM (fun d v => dictSetExisting d v (groupBoundary o g)) d)
    (globalBoundaries o)

/-- `Contain._set_values_scope`: the dict keys whose resolved
`max_occurrences` is not `0`. -/
def values_scope {α : Type} (boundaries : List (α × Boundary)) : List α :=
  (boundaries.filter (fun p => !p.2.max_occurrences.isZero)).map Prod.fst

/-- `Contain._check_interval`: iterate over `self.values`; an observed value
must have its frequency inside its resolved interval; an absent value fails
only when `rule != 'only'` and both resolved bounds are nonzero. -/
def check_interval {α : Type} [DecidableEq α] (rule : Rule)
    (boundaries : α → Boundary) (value_count : List (α × Nat)) :
    List α → Bool
  | [] => true
  | v :: rest =>
      match dictLookup v value_count with
      | some c =>
          if (boundaries v).min_occurrences ≤ c
              ∧ (boundaries v).max_occurrences.leCount c = true then
            check_interval rule boundaries value_count rest
          else false
      | none =>
          if rule ≠ .only ∧ (boundaries v).max_occurrences.isZero = false
              ∧ (boundaries v).min_occurrences ≠ 0 then false
          else check_interval rule boundaries value_count rest

/-- `Contain._check_all`: every value of the scope filter appears among the
observed keys. -/
def check_all {α : Type} [DecidableEq α] (scope : List α)
    (value_count : List (α × Nat)) : Bool :=
  scope.all (fun v => (dictLookup v value_count).isSome)

/-- `Contain._check_only`: every observed key is in the scope filter. -/
def check_only {α : Type} [DecidableEq α] (scope : List α)
    (value_count : List (α × Nat)) : Bool :=
  (value_count.map Prod.fst).all (fun v => decide (v ∈ scope))

/-- `Contain._check_rule`. -/
def check_rule {α : Type} [DecidableEq α] (rule : Rule) (scope : List α)
    (value_count : List (α × Nat)) : Bool :=
  match rule with
  | .all => check_all scope value_count
  | .only => check_only scope value_count
  | .all_and_only => check_all scope value_count && check_only scope value_count

/-- `pd.Series.value_counts` over the pooled column values: the frequency of
every distinct observed value (observed values only, counts are positive). -/
def value_counts {α : Type} [DecidableEq α] (pooled : List α) :
    List (α × Nat) :=
  (pooled.foldl (fun ks x => if x ∈ ks then ks else ks ++ [x]) []).map
    (fun k => (k, pooled.count k))

/-- Instance state relevant to `Contain.result`: the parsed options plus
`self.value_count`, stored by the latest `report` call. -/
structure State (α : Type) where
  options : ContainOptions α
  value_count : List (α × Nat)
deriving DecidableEq

/-- The report dict built by `Contain.report` (serialization by the external
treater is the identity here). -/
structure Report (α : Type) where
  value_frequency : List (α × Nat)
deriving DecidableEq

/-- `Contain.report`: computes the pooled value counts, stores them on the
instance (`self.value_count`) and returns the report dict. -/
def report {α : Type} [DecidableEq α] (o : ContainOptions α)
    (pooled : List α) : State α × Report α :=
  let vc := value_counts pooled
  (⟨o, vc⟩, ⟨vc⟩)

/-- `Contain.result`: re-resolves the boundaries and the value scope from
the instance state, then checks the interval and the rule on
`self.value_count`.  The `report` argument of the Python method is ignored
by its body.  `none` models the `KeyError` raised by
`_set_min_max_boundaries` on an override naming an unknown value. -/
def result {α : Type} [DecidableEq α] (st : State α) (_rep : Report α) :
    Option Bool :=
  (set_min_max_boundaries st.options).map (fun boundaries =>
    let boundsFun : α → Boundary :=
      fun v => (dictLookup v boundaries).getD ⟨0, .fin 0⟩
    let scope := values_scope boundaries
    if !check_interval st.options.rule boundsFun st.value_count
        st.options.values then false
    else if !check_rule st.options.rule scope st.value_count then false
    else true)

/-- Follows the spec's words on boundary resolution, for comparison with
`set_min_max_boundaries`: the resolved boundary of a value is the pair
assigned by the last override group listing it (each side individually
falling back to the global default), or the global pair when no group
lists it. -/
def resolvedBoundarySpec {α : Type} [DecidableEq α] (o : ContainOptions α)
    (v : α) : Boundary :=
  match o.occurrences_per_value.reverse.find? (fun g => decide (v ∈ g.values)) with
  | some g => groupBoundary o g
  | none => ⟨globalMin o, globalMax o⟩

end Contain

/-! ### BaseStatement: options validation -/

/-- `BaseStatement.expected_parameters`, accepted by every statement. -/
def base_expected_parameters : List String := ["type", "severity", "location"]

/-- The error raised by `BaseStatement._validate_options`: its message names
the unexpected parameters and the statement's own valid parameters. -/
structure ConfigurationError where
  unexpected_parameters : List String
  valid_parameters : List String
deriving DecidableEq, Repr

/-- `BaseStatement._validate_options`: collect the option keys that are in
neither the class's own `expected_parameters` nor the universal
`BaseStatement.expected_parameters`; raise when any exist. -/
def validate_options (expected_parameters : List String)
    (option_keys : List String) : Except ConfigurationError Unit :=
  if (option_keys.filter
      (fun o => decide (o ∉ expected_parameters ++ base_expected_parameters))).isEmpty
  then Except.ok ()
  else Except.error
    ⟨option_keys.filter
      (fun o => decide (o ∉ expected_parameters ++ base_expected_parameters)),
     expected_parameters⟩

/-! ### Unique

A scoped DataFrame is a list of rows; each row is the tuple of that row's
values across the scope columns.  `~df.duplicated(keep=False)` marks a row
iff its full tuple occurs exactly once in the scope. -/

namespace Unique

structure UniqueReport where
  unique_rows : Nat
  unique_rows_perc : ℚ
deriving DecidableEq, Repr

/-- `Unique.report`: count of rows whose tuple occurs exactly once, and the
percentage of such rows. -/
def report {ρ : Type} [DecidableEq ρ] (rows : List ρ) : UniqueReport :=
  { unique_rows := (rows.map (fun r => decide (rows.count r = 1))).count true,
    unique_rows_perc :=
      100 * ((rows.map (fun r => decide (rows.count r = 1))).count true : ℚ)
        / ((rows.map (fun r => decide (rows.count r = 1))).length : ℚ) }

/-- `Unique.result`: `report['unique_rows_%'] >= self.at_least_perc`. -/
def result (at_least_perc : ℚ) (rep : UniqueReport) : Bool :=
  rep.unique_rows_perc ≥ at_least_perc

end Unique

/-! ### NotNull

A scoped DataFrame is a list of rows; each row is the list of that row's
cells across the scope columns, `none` being a null cell. -/

namespace NotNull

inductive MulticolumnLogic : Type
  | any
  | all
deriving DecidableEq, Repr

/-- `~df.isnull().all(axis=1)`: the row is not-null unless every cell is
null (the `'any'` multicolumn logic of `NotNull.report`). -/
def row_not_null_any {α : Type} (row : List (Option α)) : Bool :=
  !(row.all (fun c => c.isNone))

/-- `~df.isnull().any(axis=1)`: the row is not-null only when no cell is
null (the `'all'` multicolumn logic of `NotNull.report`). -/
def row_not_null_all {α : Type} (row : List (Option α)) : Bool :=
  !(row.any (fun c => c.isNone))

structure NotNullReport where
  null_rows : Nat
  null_rows_perc : ℚ
  not_null_rows : Nat
  not_null_rows_perc : ℚ
deriving DecidableEq, Repr

/-- The per-row not-null mask of `NotNull.report` under the configured
multicolumn logic. -/
def notNullMask {α : Type} (logic : MulticolumnLogic)
    (rows : List (List (Option α))) : List Bool :=
  rows.map
    (match logic with
     | .all => row_not_null_all
     | .any => row_not_null_any)

/-- `NotNull.report` under the configured multicolumn logic. -/
def report {α : Type} (logic : MulticolumnLogic)
    (rows : List (List (Option α))) : NotNullReport :=
  { null_rows := (notNullMask logic rows).count false,
    null_rows_perc := 100 * ((notNullMask logic rows).count false : ℚ)
      / ((notNullMask logic rows).length : ℚ),
    not_null_rows := (notNullMask logic rows).count true,
    not_null_rows_perc := 100 * ((notNullMask logic rows).count true : ℚ)
      / ((notNullMask logic rows).length : ℚ) }

/-- `NotNull.result`: the not-null percentage must be at least
`at_least_%` and at most `at_most_%`. -/
def result (at_least_perc at_most_perc : ℚ) (rep : NotNullReport) : Bool :=
  if !(rep.not_null_rows_perc ≥ at_least_perc) then false
  else if !(rep.not_null_rows_perc ≤ at_most_perc) then false
  else true

/-- `NotNull.profile` (`not_null.py`): computes the not-null percentage
from `~df.isnull().all(axis=1)`, raises `NotImplementedError` ("statement
is useless") when it is `0`, and omits `at_least_%` (`none`) when it is
`100`. -/
def profile {α : Type} (rows : List (List (Option α))) :
    Except Unit (Option ℚ) :=
  if (100 * ((rows.map row_not_null_any).count true : ℚ)
      / ((rows.map row_not_null_any).length : ℚ)) = 0 then Except.error ()
  else if (100 * ((rows.map row_not_null_any).count true : ℚ)
      / ((rows.map row_not_null_any).length : ℚ)) ≠ 100 then
    Except.ok (some (100 * ((rows.map row_not_null_any).count true : ℚ)
      / ((rows.map row_not_null_any).length : ℚ)))
  else Except.ok none

/-- Modelled from the spec for comparison with `NotNull.profile`: the same
profile computation but using the `'all'` multicolumn logic
(`row_not_null_all`), as §4.3 of the spec describes it. -/
def profile_with_all_logic {α : Type} (rows : List (List (Option α))) :
    Except Unit (Option ℚ) :=
  if (100 * ((rows.map row_not_null_all).count true : ℚ)
      / ((rows.map row_not_null_all).length : ℚ)) = 0 then Except.error ()
  else if (100 * ((rows.map row_not_null_all).count true : ℚ)
      / ((rows.map row_not_null_all).length : ℚ)) ≠ 100 then
    Except.ok (some (100 * ((rows.map row_not_null_all).count true : ℚ)
      / ((rows.map row_not_null_all).length : ℚ)))
  else Except.ok none

end NotNull

/-! ### RowCount -/

namespace RowCount

structure RowCountOptions where
  min : Option Nat
  max : Option Nat
deriving DecidableEq, Repr

/-- `RowCount.report`: the number of rows of the table. -/
def report {ρ : Type} (rows : List ρ) : Nat :=
  rows.length

/-- `RowCount.result`: the count must respect `min`/`max` when they are
set. -/
def result (o : RowCountOptions) (row_count : Nat) : Bool :=
  if o.min.any (fun m => !decide (row_count ≥ m)) then false
  else if o.max.any (fun m => !decide (row_count ≤ m)) then false
  else true

/-- `RowCount.profile`: an exact-match profile, `min = max =` observed row
count. -/
def profile {ρ : Type} (rows : List ρ) : RowCountOptions :=
  ⟨some rows.length, some rows.length⟩

end RowCount

/-! ### StatisticInInterval

Measured statistics and thresholds are rationals; `math.isclose` is the
exact rational version of the float test; the `TypeError` raised by
`math.isclose(value, None)` is `Except.error ()`. -/

namespace StatisticInInterval

/-- Parsed comparator options of a `StatisticInInterval` statement.
`andLogic` is `combination_logic == 'and'`. -/
structure Config where
  less_than : Option ℚ
  less_or_equal_to : Option ℚ
  equal_to : Option ℚ
  not_equal_to : Option ℚ
  greater_or_equal_to : Option ℚ
  greater_than : Option ℚ
  atol : ℚ
  rtol : ℚ
  andLogic : Bool
deriving DecidableEq, Repr

/-- `math.isclose(a, b, abs_tol=atol, rel_tol=rtol)`:
`|a-b| <= max(rtol*max(|a|,|b|), atol)`. -/
def isclose (a b atol rtol : ℚ) : Bool :=
  |a - b| ≤ max (rtol * max |a| |b|) atol

/-- One comparator block of `StatisticInInterval.result`: when the
comparison passes, OR logic returns `true` (`some true`) and AND logic
falls through (`none`); when it fails, AND logic returns `false`
(`some false`) and OR logic falls through. -/
def stepOutcome (pass : Bool) (andLogic : Bool) : Option Bool :=
  if pass then (if andLogic then none else some true)
  else (if andLogic then some false else none)

/-- The `<` block. -/
def ltStep (cfg : Config) (value : ℚ) : Option Bool :=
  match cfg.less_than with
  | none => none
  | some t => stepOutcome (decide (value < t)) cfg.andLogic

/-- The `<=` block. -/
def leStep (cfg : Config) (value : ℚ) : Option Bool :=
  match cfg.less_or_equal_to with
  | none => none
  | some t => stepOutcome (decide (value ≤ t)) cfg.andLogic

/-- The `==` block. -/
def eqStep (cfg : Config) (value : ℚ) : Option Bool :=
  match cfg.equal_to with
  | none => none
  | some t => stepOutcome (isclose value t cfg.atol cfg.rtol) cfg.andLogic

/-- The `!=` block: the source compares the value against `self.equal_to`
(not `self.not_equal_to`); when `equal_to` is unset, `math.isclose(value,
None)` raises a `TypeError`. -/
def neStep (cfg : Config) (value : ℚ) : Except Unit (Option Bool) :=
  match cfg.not_equal_to with
  | none => Except.ok none
  | some _ =>
      match cfg.equal_to with
      | none => Except.error ()
      | some t =>
          Except.ok
            (stepOutcome (!isclose value t cfg.atol cfg.rtol) cfg.andLogic)

/-- The `>=` block. -/
def geStep (cfg : Config) (value : ℚ) : Option Bool :=
  match cfg.greater_or_equal_to with
  | none => none
  | some t => stepOutcome (decide (value ≥ t)) cfg.andLogic

/-- The `>` block. -/
def gtStep (cfg : Config) (value : ℚ) : Option Bool :=
  match cfg.greater_than with
  | none => none
  | some t => stepOutcome (decide (value > t)) cfg.andLogic

/-- Chain a pure comparator block with the rest of the loop body: an early
return short-circuits, otherwise evaluation falls through. -/
def chainStep (step : Option Bool) (rest : Except Unit (Option Bool)) :
    Except Unit (Option Bool) :=
  match step with
  | some b => Except.ok (some b)
  | none => rest

/-- The loop body of `StatisticInInterval.result` for one measured value:
the six comparator blocks in source order, `some b` being an early
`return b` and `none` falling through to the next value. -/
def checkValue (cfg : Config) (value : ℚ) : Except Unit (Option Bool) :=
  chainStep (ltStep cfg value)
    (chainStep (leStep cfg value)
      (chainStep (eqStep cfg value)
        (match neStep cfg value with
         | Except.error e => Except.error e
         | Except.ok step =>
             chainStep step
               (chainStep (geStep cfg value)
                 (chainStep (gtStep cfg value) (Except.ok none))))))

/-- `StatisticInInterval.result` over the flattened list of measured
values: run the loop body per value, an early return ends the loop, and a
completed loop returns `and_logic`. -/
def result (cfg : Config) : List ℚ → Except Unit Bool
  | [] => Except.ok cfg.andLogic
  | value :: rest =>
      match checkValue cfg value with
      | Except.error e => Except.error e
      | Except.ok (some b) => Except.ok b
      | Except.ok none => result cfg rest

/-- The pass bits of the configured comparators for one value, in source
order, each block's pass condition as the source computes it (the `!=`
block tests against `equal_to`). -/
def passList (cfg : Config) (value : ℚ) : List Bool :=
  (cfg.less_than.map (fun t => decide (value < t))).toList ++
  ((cfg.less_or_equal_to.map (fun t => decide (value ≤ t))).toList ++
  ((cfg.equal_to.map (fun t => isclose value t cfg.atol cfg.rtol)).toList ++
  ((cfg.not_equal_to.map
    (fun _ => !isclose value (cfg.equal_to.getD 0) cfg.atol cfg.rtol)).toList ++
  ((cfg.greater_or_equal_to.map (fun t => decide (value ≥ t))).toList ++
  (cfg.greater_than.map (fun t => decide (value > t))).toList))))

end StatisticInInterval

/-! ## Theorems -/

/-! ### Dict lemmas -/

theorem dictLookup_dictSet {α β : Type} [DecidableEq α] (d : List (α × β))
    (k k' : α) (v : β) :
    dictLookup k' (dictSet d k v) = if k' = k then some v else dictLookup k' d := by
  induction d with
  | nil =>
      by_cases h : k' = k
      · subst h; simp [dictSet, dictLookup]
      · have h2 : ¬k = k' := fun hc => h hc.symm
        simp [dictSet, dictLookup, h, h2]
  | cons p rest ih =>
      obtain ⟨k₀, v₀⟩ := p
      by_cases h₀ : k₀ = k
      · subst h₀
        by_cases h : k' = k₀
        · subst h; simp [dictSet, dictLookup]
        · have h2 : ¬k₀ = k' := fun hc => h hc.symm
          simp [dictSet, dictLookup, h, h2]
      · by_cases h₁ : k₀ = k'
        · subst h₁
          simp [dictSet, dictLookup, h₀, ih, fun hc : k₀ = k => h₀ hc]
        · simp [dictSet, dictLookup, h₀, h₁, ih]

theorem dictLookup_isSome_dictSet {α β : Type} [DecidableEq α]
    (d : List (α × β)) (k k' : α) (v : β) :
    (dictLookup k' (dictSet d k v)).isSome
      ↔ (k' = k ∨ (dictLookup k' d).isSome) := by
  rw [dictLookup_dictSet]
  by_cases h : k' = k <;> simp [h]

theorem dictLookup_foldl_dictSet {α β : Type} [DecidableEq α]
    (values : List α) (b : β) (d0 : List (α × β)) (v : α) :
    dictLookup v (values.foldl (fun d w => dictSet d w b) d0)
      = if v ∈ values then some b else dictLookup v d0 := by
  induction values generalizing d0 with
  | nil => simp
  | cons w ws ih =>
      rw [List.foldl_cons, ih]
      by_cases hv : v ∈ ws
      · simp [hv]
      · by_cases hw : v = w
        · simp [hv, hw, dictLookup_dictSet]
        · simp [hv, hw, dictLookup_dictSet, List.mem_cons]

theorem foldlM_dictSetExisting_lookup {α β : Type} [DecidableEq α]
    (gvals : List α) (b : β) (d : List (α × β))
    (hcov : ∀ w ∈ gvals, (dictLookup w d).isSome = true) :
    ∃ d', gvals.foldlM (fun d w => dictSetExisting d w b) d = some d'
      ∧ ∀ v, dictLookup v d' = if v ∈ gvals then some b else dictLookup v d := by
  induction gvals generalizing d with
  | nil => exact ⟨d, rfl, by simp⟩
  | cons w ws ih =>
      have hw := hcov w (List.mem_cons_self w ws)
      have hset : dictSetExisting d w b = some (dictSet d w b) := by
        unfold dictSetExisting
        rw [if_pos hw]
      have hcov' : ∀ x ∈ ws, (dictLookup x (dictSet d w b)).isSome = true := by
        intro x hx
        rw [dictLookup_dictSet]
        by_cases hxw : x = w
        · simp [hxw]
        · rw [if_neg hxw]
          exact hcov x (List.mem_cons_of_mem w hx)
      obtain ⟨d', hd', hlook⟩ := ih (dictSet d w b) hcov'
      refine ⟨d', ?_, ?_⟩
      · simp only [List.foldlM_cons, hset, Option.bind_eq_bind, Option.some_bind]
        exact hd'
      · intro v
        rw [hlook v, dictLookup_dictSet]
        by_cases h1 : v ∈ ws
        · simp [h1]
        · by_cases h2 : v = w <;> simp [h1, h2, List.mem_cons]

theorem foldlM_groups_lookup {α : Type} [DecidableEq α]
    (o : ContainOptions α) (groups : List (OccurrenceGroup α))
    (d : List (α × Boundary))
    (hcov : ∀ g ∈ groups, ∀ w ∈ g.values, (dictLookup w d).isSome = true) :
    ∃ d', groups.foldlM
        (fun d g => g.values.foldlM
          (fun d v => dictSetExisting d v (Contain.groupBoundary o g)) d) d
        = some d'
      ∧ ∀ v, dictLookup v d'
          = match groups.reverse.find? (fun g => decide (v ∈ g.values)) with
            | some g => some (Contain.groupBoundary o g)
            | none => dictLookup v d := by
  induction groups generalizing d with
  | nil => exact ⟨d, rfl, by simp⟩
  | cons g gs ih =>
      obtain ⟨d₁, hd₁, hlook₁⟩ :=
        foldlM_dictSetExisting_lookup g.values (Contain.groupBoundary o g) d
          (hcov g (List.mem_cons_self g gs))
      have hcov' : ∀ g' ∈ gs, ∀ w ∈ g'.values,
          (dictLookup w d₁).isSome = true := by
        intro g' hg' w hwv
        rw [hlook₁ w]
        by_cases h1 : w ∈ g.values
        · simp [h1]
        · rw [if_neg h1]
          exact hcov g' (List.mem_cons_of_mem g hg') w hwv
      obtain ⟨d', hd', hlook⟩ := ih d₁ hcov'
      refine ⟨d', ?_, ?_⟩
      · simp only [List.foldlM_cons, hd₁, Option.bind_eq_bind, Option.some_bind]
        exact hd'
      · intro v
        rw [hlook v, List.reverse_cons, List.find?_append]
        cases hfind : gs.reverse.find? (fun g' => decide (v ∈ g'.values)) with
        | some g' => simp [Option.or]
        | none =>
            rw [hlook₁ v]
            by_cases hv : v ∈ g.values
            · simp [List.find?, hv, Option.or]
            · simp [List.find?, hv, Option.or]

/-! ### Claim theorems: Contain interval check, result purity, RowCount,
options validation -/

/-- Claim C1: `Contain._check_interval` passes iff every expected value
that is observed has its frequency inside its resolved
`[min_occurrences, max_occurrences]`, and every expected value that is
absent either has `rule = 'only'` or one of its resolved bounds equal to
zero — so under rule `'only'` an absent value never causes an interval
violation, whatever its resolved `min_occurrences`. -/
theorem contain_check_interval_spec {α : Type} [DecidableEq α]
    (rule : Rule) (boundaries : α → Boundary) (value_count : List (α × Nat))
    (values : List α) :
    Contain.check_interval rule boundaries value_count values = true
      ↔ ∀ v ∈ values,
          (∀ c, dictLookup v value_count = some c →
            (boundaries v).min_occurrences ≤ c
              ∧ (boundaries v).max_occurrences.leCount c = true)
          ∧ (dictLookup v value_count = none →
              rule = .only ∨ (boundaries v).min_occurrences = 0
                ∨ (boundaries v).max_occurrences.isZero = true) := by
  induction values with
  | nil => simp [Contain.check_interval]
  | cons v rest ih =>
      rw [List.forall_mem_cons]
      cases hvc : dictLookup v value_count with
      | some c =>
          simp only [Contain.check_interval, hvc]
          by_cases hin : (boundaries v).min_occurrences ≤ c
              ∧ (boundaries v).max_occurrences.leCount c = true
          · rw [if_pos hin, ih]
            constructor
            · intro h
              refine ⟨⟨fun c' hc' => ?_, fun hnone => ?_⟩, h⟩
              · cases hc'; exact hin
              · cases hnone
            · exact fun h => h.2
          · rw [if_neg hin]
            simp only [Bool.false_eq_true, false_iff]
            intro h
            exact hin (h.1.1 c rfl)
      | none =>
          simp only [Contain.check_interval, hvc]
          by_cases hv : rule ≠ Rule.only
              ∧ (boundaries v).max_occurrences.isZero = false
              ∧ (boundaries v).min_occurrences ≠ 0
          · rw [if_pos hv]
            simp only [Bool.false_eq_true, false_iff]
            intro h
            rcases h.1.2 trivial with h' | h' | h'
            · exact hv.1 h'
            · exact hv.2.2 h'
            · have h2 := hv.2.1
              rw [h'] at h2
              cases h2
          · rw [if_neg hv, ih]
            constructor
            · intro h
              refine ⟨⟨fun c' hc' => ?_, fun _ => ?_⟩, h⟩
              · cases hc'
              · by_cases h₁ : rule = Rule.only
                · exact Or.inl h₁
                by_cases h₂ : (boundaries v).min_occurrences = 0
                · exact Or.inr (Or.inl h₂)
                by_cases h₃ : (boundaries v).max_occurrences.isZero = true
                · exact Or.inr (Or.inr h₃)
                · refine absurd ⟨h₁, ?_, h₂⟩ hv
                  cases hz : (boundaries v).max_occurrences.isZero
                  · rfl
                  · exact absurd hz h₃
            · exact fun h => h.2

/-- Claim C9: `Contain.result` never reads its `report` argument — after
`Contain.report` has stored the pooled frequency map on the instance, the
verdict is the same for any two report dicts. -/
theorem contain_result_ignores_report {α : Type} [DecidableEq α]
    (o : ContainOptions α) (pooled : List α)
    (rep₁ rep₂ : Contain.Report α) :
    Contain.result (Contain.report o pooled).1 rep₁
      = Contain.result (Contain.report o pooled).1 rep₂ := rfl

/-- Claim C7: building a `RowCount` statement from the profile of a table
(`min = max =` its row count) and evaluating it on the report of the same
table always passes. -/
theorem rowcount_profile_roundtrip {ρ : Type} (rows : List ρ) :
    RowCount.result (RowCount.profile rows) (RowCount.report rows) = true := by
  simp [RowCount.result, RowCount.profile, RowCount.report]

/-- Claim C5: `_validate_options` succeeds iff every configuration key is
among the statement's own expected parameters or the universal ones
(`'type'`, `'severity'`, `'location'`); otherwise it fails with an error
naming exactly the offending keys and the statement's declared parameter
set. -/
theorem validate_options_spec (expected_parameters option_keys : List String) :
    (validate_options expected_parameters option_keys = Except.ok ()
      ↔ ∀ k ∈ option_keys, k ∈ expected_parameters ++ base_expected_parameters)
    ∧ (∀ e, validate_options expected_parameters option_keys = Except.error e →
        e.unexpected_parameters = option_keys.filter
          (fun o => decide (o ∉ expected_parameters ++ base_expected_parameters))
        ∧ e.valid_parameters = expected_parameters
        ∧ e.unexpected_parameters ≠ []) := by
  by_cases hu : (option_keys.filter
      (fun o => decide (o ∉ expected_parameters ++ base_expected_parameters))) = []
  · have hok : validate_options expected_parameters option_keys = Except.ok () := by
      unfold validate_options
      rw [if_pos (List.isEmpty_iff.mpr hu)]
    refine ⟨⟨fun _ k hk => ?_, fun _ => hok⟩, fun e he => ?_⟩
    · by_contra hk'
      have hmem : k ∈ option_keys.filter
          (fun o => decide (o ∉ expected_parameters ++ base_expected_parameters)) :=
        List.mem_filter.mpr ⟨hk, by simpa using hk'⟩
      rw [hu] at hmem
      cases hmem
    · rw [hok] at he
      cases he
  · have herr : validate_options expected_parameters option_keys
        = Except.error
            ⟨option_keys.filter
              (fun o => decide (o ∉ expected_parameters ++ base_expected_parameters)),
             expected_parameters⟩ := by
      unfold validate_options
      rw [if_neg]
      rw [List.isEmpty_iff]
      exact hu
    refine ⟨⟨fun hok => ?_, fun hall => ?_⟩, fun e he => ?_⟩
    · rw [herr] at hok
      cases hok
    · exfalso
      apply hu
      rw [List.filter_eq_nil_iff]
      intro a ha
      simp [hall a ha]
    · rw [herr] at he
      cases he
      exact ⟨rfl, rfl, hu⟩

/-- Witness for claim C5 at concrete inputs: `['min', 'type']` is accepted
by a statement expecting `['min', 'max']`. -/
theorem validate_options_spec_witness :
    validate_options ["min", "max"] ["min", "type"] = Except.ok () :=
  (validate_options_spec ["min", "max"] ["min", "type"]).1.mpr (by decide)

/-- Claim C2: `_set_min_max_boundaries` assigns every value in `values` the
global `(min_occurrences, max_occurrences)` pair and then lets each
override group re-assign the pair for its listed values, each unspecified
side falling back to the global default; when several groups list the same
value, the last group wins.  The global pair itself defaults per rule when
unset: `'all'`/`'all_and_only'` give `min = 1`, `'only'` gives `min = 0`,
and every rule gives `max = ∞`. -/
theorem contain_boundary_resolution {α : Type} [DecidableEq α]
    (o : ContainOptions α)
    (hcov : ∀ g ∈ o.occurrences_per_value, ∀ w ∈ g.values, w ∈ o.values) :
    (∃ m, Contain.set_min_max_boundaries o = some m
      ∧ ∀ v ∈ o.values,
          dictLookup v m = some (Contain.resolvedBoundarySpec o v))
    ∧ (o.min_occurrences = none →
        Contain.globalMin o
          = match o.rule with
            | .all => 1
            | .only => 0
            | .all_and_only => 1)
    ∧ (o.max_occurrences = none → Contain.globalMax o = .inf) := by
  refine ⟨?_, ?_, ?_⟩
  · have hcov' : ∀ g ∈ o.occurrences_per_value, ∀ w ∈ g.values,
        (dictLookup w (Contain.globalBoundaries o)).isSome = true := by
      intro g hg w hwv
      unfold Contain.globalBoundaries
      rw [dictLookup_foldl_dictSet]
      simp [hcov g hg w hwv]
    obtain ⟨d', hd', hlook⟩ :=
      foldlM_groups_lookup o o.occurrences_per_value
        (Contain.globalBoundaries o) hcov'
    refine ⟨d', hd', fun v hv => ?_⟩
    rw [hlook v]
    unfold Contain.resolvedBoundarySpec
    cases hfind : o.occurrences_per_value.reverse.find?
        (fun g => decide (v ∈ g.values)) with
    | some g => rfl
    | none =>
        unfold Contain.globalBoundaries
        rw [dictLookup_foldl_dictSet]
        simp [hv]
  · intro h
    unfold Contain.globalMin
    rw [h]
    cases o.rule <;> rfl
  · intro h
    unfold Contain.globalMax
    rw [h]
    rfl

/-- Witness for claim C2 at a concrete `Contain` configuration over `ℤ`:
rule `'all'`, values `[1, 2]`, two override groups both listing `1` — the
later one wins and its unset `min` side falls back to the global default. -/
theorem contain_boundary_resolution_witness :
    (∀ g ∈ (⟨Rule.all, [1, 2], none, none,
        [⟨[1], some 5, none⟩, ⟨[1, 2], none, some 7⟩]⟩ :
          ContainOptions ℤ).occurrences_per_value,
      ∀ w ∈ g.values, w ∈ [(1 : ℤ), 2])
    ∧ ((∃ m, Contain.set_min_max_boundaries
          (⟨Rule.all, [1, 2], none, none,
            [⟨[1], some 5, none⟩, ⟨[1, 2], none, some 7⟩]⟩ :
              ContainOptions ℤ) = some m
        ∧ ∀ v ∈ [(1 : ℤ), 2],
            dictLookup v m = some (Contain.resolvedBoundarySpec
              (⟨Rule.all, [1, 2], none, none,
                [⟨[1], some 5, none⟩, ⟨[1, 2], none, some 7⟩]⟩ :
                  ContainOptions ℤ) v))) :=
  ⟨by decide,
   ((contain_boundary_resolution
      (⟨Rule.all, [1, 2], none, none,
        [⟨[1], some 5, none⟩, ⟨[1, 2], none, some 7⟩]⟩ : ContainOptions ℤ)
      (by decide)).1)⟩

/-! ### StatisticInInterval: comparator chain lemmas -/

open StatisticInInterval

theorem chainStep_and (step : Option Bool) (p? : Option Bool)
    (rest : Except Unit (Option Bool)) (l : List Bool)
    (hstep : step = match p? with
      | none => none
      | some p => stepOutcome p true)
    (hrest : rest = Except.ok (if l.all id then none else some false)) :
    chainStep step rest
      = Except.ok (if (p?.toList ++ l).all id then none else some false) := by
  cases p? with
  | none =>
      subst hstep
      simpa [chainStep] using hrest
  | some p =>
      subst hstep
      cases p
      · simp [chainStep, stepOutcome]
      · simpa [chainStep, stepOutcome] using hrest

theorem chainStep_or (step : Option Bool) (p? : Option Bool)
    (rest : Except Unit (Option Bool)) (l : List Bool)
    (hstep : step = match p? with
      | none => none
      | some p => stepOutcome p false)
    (hrest : rest = Except.ok (if l.any id then some true else none)) :
    chainStep step rest
      = Except.ok (if (p?.toList ++ l).any id then some true else none) := by
  cases p? with
  | none =>
      subst hstep
      simpa [chainStep] using hrest
  | some p =>
      subst hstep
      cases p
      · simpa [chainStep, stepOutcome] using hrest
      · simp [chainStep, stepOutcome]

theorem checkValue_and (cfg : Config) (v : ℚ) (hand : cfg.andLogic = true)
    (hne : cfg.not_equal_to.isSome = true → cfg.equal_to.isSome = true) :
    checkValue cfg v
      = Except.ok (if (passList cfg v).all id then none else some false) := by
  have hgt := chainStep_and (gtStep cfg v)
    (cfg.greater_than.map (fun t => decide (v > t))) (Except.ok none) []
    (by unfold gtStep; rw [hand]; cases cfg.greater_than <;> rfl) rfl
  have hge := chainStep_and (geStep cfg v)
    (cfg.greater_or_equal_to.map (fun t => decide (v ≥ t))) _ _
    (by unfold geStep; rw [hand]; cases cfg.greater_or_equal_to <;> rfl) hgt
  have hnestep : (match neStep cfg v with
      | Except.error e => Except.error e
      | Except.ok step =>
          chainStep step
            (chainStep (geStep cfg v)
              (chainStep (gtStep cfg v) (Except.ok none))))
      = Except.ok
          (if ((cfg.not_equal_to.map
                (fun _ => !isclose v (cfg.equal_to.getD 0) cfg.atol cfg.rtol)).toList
              ++ ((cfg.greater_or_equal_to.map (fun t => decide (v ≥ t))).toList
                ++ ((cfg.greater_than.map (fun t => decide (v > t))).toList
                  ++ ([] : List Bool)))).all id then none else some false) := by
    cases hn : cfg.not_equal_to with
    | none =>
        have hne0 : neStep cfg v = Except.ok none := by
          unfold neStep
          rw [hn]
        rw [hne0]
        simpa [chainStep] using hge
    | some n =>
        have hsome : cfg.equal_to.isSome = true := hne (by rw [hn]; rfl)
        cases he : cfg.equal_to with
        | none => rw [he] at hsome; cases hsome
        | some e =>
            have hnev : neStep cfg v
                = Except.ok
                    (stepOutcome (!isclose v e cfg.atol cfg.rtol) true) := by
              unfold neStep
              rw [hn, he, hand]
            have hch := chainStep_and
              (stepOutcome (!isclose v e cfg.atol cfg.rtol) true)
              (some (!isclose v e cfg.atol cfg.rtol)) _ _ rfl hge
            rw [hnev]
            simpa using hch
  have heq := chainStep_and (eqStep cfg v)
    (cfg.equal_to.map (fun t => isclose v t cfg.atol cfg.rtol)) _ _
    (by unfold eqStep; rw [hand]; cases cfg.equal_to <;> rfl) hnestep
  have hle := chainStep_and (leStep cfg v)
    (cfg.less_or_equal_to.map (fun t => decide (v ≤ t))) _ _
    (by unfold leStep; rw [hand]; cases cfg.less_or_equal_to <;> rfl) heq
  have hlt := chainStep_and (ltStep cfg v)
    (cfg.less_than.map (fun t => decide (v < t))) _ _
    (by unfold ltStep; rw [hand]; cases cfg.less_than <;> rfl) hle
  rw [List.append_nil] at hlt
  unfold checkValue passList
  exact hlt

theorem checkValue_or (cfg : Config) (v : ℚ) (hand : cfg.andLogic = false)
    (hne : cfg.not_equal_to.isSome = true → cfg.equal_to.isSome = true) :
    checkValue cfg v
      = Except.ok (if (passList cfg v).any id then some true else none) := by
  have hgt := chainStep_or (gtStep cfg v)
    (cfg.greater_than.map (fun t => decide (v > t))) (Except.ok none) []
    (by unfold gtStep; rw [hand]; cases cfg.greater_than <;> rfl) rfl
  have hge := chainStep_or (geStep cfg v)
    (cfg.greater_or_equal_to.map (fun t => decide (v ≥ t))) _ _
    (by unfold geStep; rw [hand]; cases cfg.greater_or_equal_to <;> rfl) hgt
  have hnestep : (match neStep cfg v with
      | Except.error e => Except.error e
      | Except.ok step =>
          chainStep step
            (chainStep (geStep cfg v)
              (chainStep (gtStep cfg v) (Except.ok none))))
      = Except.ok
          (if ((cfg.not_equal_to.map
                (fun _ => !isclose v (cfg.equal_to.getD 0) cfg.atol cfg.rtol)).toList
              ++ ((cfg.greater_or_equal_to.map (fun t => decide (v ≥ t))).toList
                ++ ((cfg.greater_than.map (fun t => decide (v > t))).toList
                  ++ ([] : List Bool)))).any id then some true else none) := by
    cases hn : cfg.not_equal_to with
    | none =>
        have hne0 : neStep cfg v = Except.ok none := by
          unfold neStep
          rw [hn]
        rw [hne0]
        simpa [chainStep] using hge
    | some n =>
        have hsome : cfg.equal_to.isSome = true := hne (by rw [hn]; rfl)
        cases he : cfg.equal_to with
        | none => rw [he] at hsome; cases hsome
        | some e =>
            have hnev : neStep cfg v
                = Except.ok
                    (stepOutcome (!isclose v e cfg.atol cfg.rtol) false) := by
              unfold neStep
              rw [hn, he, hand]
            have hch := chainStep_or
              (stepOutcome (!isclose v e cfg.atol cfg.rtol) false)
              (some (!isclose v e cfg.atol cfg.rtol)) _ _ rfl hge
            rw [hnev]
            simpa using hch
  have heq := chainStep_or (eqStep cfg v)
    (cfg.equal_to.map (fun t => isclose v t cfg.atol cfg.rtol)) _ _
    (by unfold eqStep; rw [hand]; cases cfg.equal_to <;> rfl) hnestep
  have hle := chainStep_or (leStep cfg v)
    (cfg.less_or_equal_to.map (fun t => decide (v ≤ t))) _ _
    (by unfold leStep; rw [hand]; cases cfg.less_or_equal_to <;> rfl) heq
  have hlt := chainStep_or (ltStep cfg v)
    (cfg.less_than.map (fun t => decide (v < t))) _ _
    (by unfold ltStep; rw [hand]; cases cfg.less_than <;> rfl) hle
  rw [List.append_nil] at hlt
  unfold checkValue passList
  exact hlt

theorem result_and_characterization (cfg : Config)
    (hand : cfg.andLogic = true)
    (hne : cfg.not_equal_to.isSome = true → cfg.equal_to.isSome = true)
    (values : List ℚ) :
    StatisticInInterval.result cfg values
      = Except.ok (values.all (fun v => (passList cfg v).all id)) := by
  induction values with
  | nil =>
      unfold StatisticInInterval.result
      rw [hand]
      rfl
  | cons v rest ih =>
      rw [StatisticInInterval.result, checkValue_and cfg v hand hne]
      by_cases hp : (passList cfg v).all id = true
      · rw [if_pos hp]
        simpa [hp] using ih
      · have hp' : (passList cfg v).all id = false := by
          cases hx : (passList cfg v).all id
          · rfl
          · exact absurd hx hp
        rw [if_neg (by rw [hp']; exact fun h => by cases h)]
        simp [hp']

theorem result_or_characterization (cfg : Config)
    (hand : cfg.andLogic = false)
    (hne : cfg.not_equal_to.isSome = true → cfg.equal_to.isSome = true)
    (values : List ℚ) :
    StatisticInInterval.result cfg values
      = Except.ok (values.any (fun v => (passList cfg v).any id)) := by
  induction values with
  | nil =>
      unfold StatisticInInterval.result
      rw [hand]
      rfl
  | cons v rest ih =>
      rw [StatisticInInterval.result, checkValue_or cfg v hand hne]
      by_cases hp : (passList cfg v).any id = true
      · rw [if_pos hp]
        simp [hp]
      · have hp' : (passList cfg v).any id = false := by
          cases hx : (passList cfg v).any id
          · rfl
          · exact absurd hx hp
        rw [if_neg (by rw [hp']; exact fun h => by cases h)]
        simpa [hp'] using ih

/-- Claim C3: the `!=` branch of `StatisticInInterval.result` compares the
measured value (with the tolerance test) against the `==` threshold
`equal_to` instead of `not_equal_to`: with both comparators configured the
branch passes exactly when the value is not close to `equal_to`, whatever
`not_equal_to` holds — and the whole verdict is unchanged when
`not_equal_to` is replaced by any other threshold. -/
theorem sii_ne_branch_uses_eq_threshold
    (lt le ge gt : Option ℚ) (e n v atol rtol : ℚ) (andLogic : Bool) :
    (neStep ⟨lt, le, some e, some n, ge, gt, atol, rtol, andLogic⟩ v
      = Except.ok (stepOutcome (!isclose v e atol rtol) andLogic))
    ∧ (∀ (n' : ℚ) (values : List ℚ),
        StatisticInInterval.result
          ⟨lt, le, some e, some n, ge, gt, atol, rtol, andLogic⟩ values
        = StatisticInInterval.result
          ⟨lt, le, some e, some n', ge, gt, atol, rtol, andLogic⟩ values) := by
  refine ⟨rfl, fun n' values => ?_⟩
  induction values with
  | nil => rfl
  | cons v' rest ih =>
      rw [StatisticInInterval.result, StatisticInInterval.result]
      have hcv : checkValue ⟨lt, le, some e, some n, ge, gt, atol, rtol, andLogic⟩ v'
          = checkValue ⟨lt, le, some e, some n', ge, gt, atol, rtol, andLogic⟩ v' := rfl
      rw [← hcv]
      cases checkValue ⟨lt, le, some e, some n, ge, gt, atol, rtol, andLogic⟩ v' with
      | error err => rfl
      | ok s =>
          cases s with
          | none => exact ih
          | some b => rfl

/-- Claim C4: under `'and'` combination logic `StatisticInInterval.result`
is the conjunction, and under `'or'` logic the disjunction, of the
configured comparators' pass bits over all measured values — so any
failing comparator forces `false` under AND, any passing comparator forces
`true` under OR, and a loop that never exits early ends in `true` under
AND and `false` under OR (in particular for an empty value list or no
configured comparators).  The hypothesis rules out the configurations on
which the `!=` branch raises instead of comparing (claim C10). -/
theorem sii_combination_logic (cfg : Config) (values : List ℚ)
    (hne : cfg.not_equal_to.isSome = true → cfg.equal_to.isSome = true) :
    StatisticInInterval.result cfg values
      = Except.ok
          (if cfg.andLogic then values.all (fun v => (passList cfg v).all id)
           else values.any (fun v => (passList cfg v).any id)) := by
  cases hand : cfg.andLogic with
  | false =>
      rw [if_neg (fun h : false = true => by cases h)]
      exact result_or_characterization cfg hand hne values
  | true =>
      rw [if_pos rfl]
      exact result_and_characterization cfg hand hne values

/-- Witness for claim C4 at a concrete configuration: `'<': 5` and
`'>': 0` under AND logic pass on every value of `[3, 4]`. -/
theorem sii_combination_logic_witness :
    StatisticInInterval.result
      ⟨some 5, none, none, none, none, some 0, 0, 1/1000000000, true⟩ [3, 4]
      = Except.ok true :=
  (sii_combination_logic
    ⟨some 5, none, none, none, none, some 0, 0, 1/1000000000, true⟩ [3, 4]
    (by decide)).trans (by rfl)

/-- Claim C10 (amended): with a `'!='` comparator configured but `'=='`
unset, and no configured `'<'`/`'<='` comparator exiting earlier,
`StatisticInInterval.result` on a report with at least one measured value
raises a `TypeError` from `math.isclose(value, None)`. -/
theorem sii_ne_without_eq_raises (cfg : Config) (v : ℚ) (rest : List ℚ)
    (n : ℚ)
    (hlt : cfg.less_than = none) (hle : cfg.less_or_equal_to = none)
    (heq : cfg.equal_to = none) (hn : cfg.not_equal_to = some n) :
    StatisticInInterval.result cfg (v :: rest) = Except.error () := by
  have hcv : checkValue cfg v = Except.error () := by
    unfold checkValue chainStep ltStep leStep eqStep neStep
    rw [hlt, hle, heq, hn]
  rw [StatisticInInterval.result, hcv]

/-- Witness for claim C10's amended statement at a concrete
configuration: only `'!=': 3` configured, one measured value. -/
theorem sii_ne_without_eq_raises_witness :
    StatisticInInterval.result
      ⟨none, none, none, some 3, none, none, 0, 1/1000000000, true⟩ [10]
      = Except.error () :=
  sii_ne_without_eq_raises
    ⟨none, none, none, some 3, none, none, 0, 1/1000000000, true⟩ 10 [] 3
    rfl rfl rfl rfl

/-- Counterexample to claim C10 as stated: an instance with `'!=': 3`
configured and `'=='` unset, but also `'<': 5` under AND logic — on the
measured value `10` the failing `<` comparison returns `false` before the
`!=` branch is reached, so no `TypeError` is raised. -/
theorem sii_ne_without_eq_counterexample :
    StatisticInInterval.result
      ⟨some 5, none, none, some 3, none, none, 0, 1/1000000000, true⟩ [10]
      = Except.ok false
    ∧ StatisticInInterval.result
      ⟨some 5, none, none, some 3, none, none, 0, 1/1000000000, true⟩ [10]
      ≠ Except.error () := by
  constructor
  · rfl
  · intro h
    cases h

/-! ### NotNull profile -/

/-- Counterexample to claim C6 as stated: on the one-row sample
`[[0, null]]` the profile uses the `'any'` multicolumn logic, under which
the row is not-null, so it returns a configuration omitting `at_least_%`;
had it used the `'all'` logic of the claim, the sample would be 100% null
and the profile would have to fail with "statement is useless". -/
theorem notnull_profile_counterexample :
    NotNull.profile [[some (0 : ℚ), none]] = Except.ok none
    ∧ NotNull.profile_with_all_logic [[some (0 : ℚ), none]]
        = Except.error () := by
  constructor
  · unfold NotNull.profile
    norm_num [NotNull.row_not_null_any]
  · unfold NotNull.profile_with_all_logic
    norm_num [NotNull.row_not_null_all]

/-- Claim C6 (amended): `NotNull.profile` computes the observed not-null
percentage with the `'any'` multicolumn logic (the mask of
`NotNull.report` with logic `'any'`, the option's default), fails with the
"statement is useless" error exactly when that percentage is `0`, and
otherwise infers `at_least_%` as that percentage, omitting it when the
sample is 100% not-null. -/
theorem notnull_profile_spec {α : Type} (rows : List (List (Option α)))
    (_hrows : rows ≠ []) :
    NotNull.profile rows
      = (if (NotNull.report NotNull.MulticolumnLogic.any rows).not_null_rows_perc = 0
         then Except.error ()
         else if (NotNull.report NotNull.MulticolumnLogic.any rows).not_null_rows_perc = 100
         then Except.ok none
         else Except.ok
            (some ((NotNull.report NotNull.MulticolumnLogic.any rows).not_null_rows_perc))) := by
  have hrep : (NotNull.report NotNull.MulticolumnLogic.any rows).not_null_rows_perc
      = 100 * ((rows.map NotNull.row_not_null_any).count true : ℚ)
        / ((rows.map NotNull.row_not_null_any).length : ℚ) := rfl
  rw [hrep]
  unfold NotNull.profile
  by_cases h0 : 100 * ((rows.map NotNull.row_not_null_any).count true : ℚ)
      / ((rows.map NotNull.row_not_null_any).length : ℚ) = 0
  · rw [if_pos h0, if_pos h0]
  · rw [if_neg h0, if_neg h0]
    by_cases h100 : 100 * ((rows.map NotNull.row_not_null_any).count true : ℚ)
        / ((rows.map NotNull.row_not_null_any).length : ℚ) = 100
    · rw [if_pos h100, if_neg (not_not_intro h100)]
    · rw [if_neg h100, if_pos h100]

/-- Witness for claim C6's amended statement: a two-row sample, one row
not-null and one all-null, yields `at_least_% = 50`. -/
theorem notnull_profile_spec_witness :
    NotNull.profile [[some (1 : ℚ)], [none]]
      = (if (NotNull.report NotNull.MulticolumnLogic.any
            [[some (1 : ℚ)], [none]]).not_null_rows_perc = 0
         then Except.error ()
         else if (NotNull.report NotNull.MulticolumnLogic.any
            [[some (1 : ℚ)], [none]]).not_null_rows_perc = 100
         then Except.ok none
         else Except.ok
            (some ((NotNull.report NotNull.MulticolumnLogic.any
              [[some (1 : ℚ)], [none]]).not_null_rows_perc))) :=
  notnull_profile_spec [[some (1 : ℚ)], [none]] (by decide)

/-! ### Unique -/

theorem countP_eq_length_filter_finRange {ρ : Type} (l : List ρ)
    (p : ρ → Bool) :
    l.countP p
      = ((List.finRange l.length).filter (fun i => p (l.get i))).length := by
  conv_lhs => rw [← List.finRange_map_get l]
  rw [List.countP_map, List.countP_eq_length_filter]
  rfl

theorem count_eq_length_filter_finRange {ρ : Type} [DecidableEq ρ]
    (l : List ρ) (a : ρ) :
    l.count a
      = ((List.finRange l.length).filter
          (fun i => decide (l.get i = a))).length := by
  have h1 : l.count a = l.countP (fun x => decide (x = a)) := by
    rw [List.count_eq_countP]
    rfl
  rw [h1, countP_eq_length_filter_finRange]

theorem count_get_eq_one_iff {ρ : Type} [DecidableEq ρ] (l : List ρ)
    (i : Fin l.length) :
    l.count (l.get i) = 1
      ↔ ∀ j : Fin l.length, j ≠ i → l.get j ≠ l.get i := by
  rw [count_eq_length_filter_finRange]
  have hi : i ∈ (List.finRange l.length).filter
      (fun k => decide (l.get k = l.get i)) := by
    rw [List.mem_filter]
    exact ⟨List.mem_finRange i, by simp⟩
  constructor
  · intro h1 j hji hjeq
    rcases List.length_eq_one.mp h1 with ⟨x, hx⟩
    have hj : j ∈ (List.finRange l.length).filter
        (fun k => decide (l.get k = l.get i)) := by
      rw [List.mem_filter]
      exact ⟨List.mem_finRange j, by simpa using hjeq⟩
    rw [hx, List.mem_singleton] at hi hj
    exact hji (hj.trans hi.symm)
  · intro hno
    have hmem : ∀ k, k ∈ (List.finRange l.length).filter
        (fun k => decide (l.get k = l.get i)) → k = i := by
      intro k hk
      rw [List.mem_filter] at hk
      by_contra hki
      exact hno k hki (by simpa using hk.2)
    have hnd : ((List.finRange l.length).filter
        (fun k => decide (l.get k = l.get i))).Nodup :=
      (List.nodup_finRange _).filter _
    cases hF : (List.finRange l.length).filter
        (fun k => decide (l.get k = l.get i)) with
    | nil => rw [hF] at hi; cases hi
    | cons x rest =>
        cases rest with
        | nil => rfl
        | cons y rest2 =>
            have hx : x = i := hmem x (by rw [hF]; exact List.mem_cons_self x _)
            have hy : y = i :=
              hmem y (by
                rw [hF]
                exact List.mem_cons_of_mem x (List.mem_cons_self y rest2))
            rw [hF, List.nodup_cons] at hnd
            exact absurd (by rw [hx, ← hy]; exact List.mem_cons_self y rest2)
              hnd.1

/-- Claim C8: `Unique.report` counts a row as unique iff no other row of
the scope is identical to it — `unique_rows` is the number of positions
whose full row tuple occurs at no other position — the reported percentage
is the unique-row fraction of all rows, and `Unique.result` passes iff
that percentage reaches the `at_least_%` threshold. -/
theorem unique_report_result_spec {ρ : Type} [DecidableEq ρ]
    (rows : List ρ) (at_least_perc : ℚ) (_hrows : rows ≠ []) :
    (Unique.report rows).unique_rows
      = ((List.finRange rows.length).filter
          (fun i => decide (∀ j : Fin rows.length, j ≠ i →
            rows.get j ≠ rows.get i))).length
    ∧ (Unique.report rows).unique_rows_perc
      = 100 * ((Unique.report rows).unique_rows : ℚ) / (rows.length : ℚ)
    ∧ (Unique.result at_least_perc (Unique.report rows) = true
        ↔ (Unique.report rows).unique_rows_perc ≥ at_least_perc) := by
  refine ⟨?_, ?_, ?_⟩
  · show (rows.map (fun r => decide (rows.count r = 1))).count true = _
    have h1 : (rows.map (fun r => decide (rows.count r = 1))).count true
        = rows.countP (fun r => decide (rows.count r = 1)) := by
      rw [List.count_eq_countP, List.countP_map]
      apply List.countP_congr
      intro a _
      simp [Function.comp]
    rw [h1, countP_eq_length_filter_finRange]
    apply congrArg List.length
    apply List.filter_congr
    intro i _
    exact decide_eq_decide.mpr (count_get_eq_one_iff rows i)
  · show 100 * ((rows.map (fun r => decide (rows.count r = 1))).count true : ℚ)
        / (((rows.map (fun r => decide (rows.count r = 1))).length : ℚ)) = _
    rw [List.length_map]
    rfl
  · show decide ((Unique.report rows).unique_rows_perc ≥ at_least_perc) = true ↔ _
    exact decide_eq_true_iff

/-- Witness for claim C8 at the concrete scope `[1, 1, 2]`: one unique
row out of three. -/
theorem unique_report_result_spec_witness :
    (Unique.report ([1, 1, 2] : List ℤ)).unique_rows
      = ((List.finRange ([1, 1, 2] : List ℤ).length).filter
          (fun i => decide (∀ j : Fin ([1, 1, 2] : List ℤ).length, j ≠ i →
            ([1, 1, 2] : List ℤ).get j ≠ ([1, 1, 2] : List ℤ).get i))).length
    ∧ (Unique.report ([1, 1, 2] : List ℤ)).unique_rows_perc
      = 100 * ((Unique.report ([1, 1, 2] : List ℤ)).unique_rows : ℚ)
        / (([1, 1, 2] : List ℤ).length : ℚ)
    ∧ (Unique.result 100 (Unique.report ([1, 1, 2] : List ℤ)) = true
        ↔ (Unique.report ([1, 1, 2] : List ℤ)).unique_rows_perc ≥ 100) :=
  unique_report_result_spec ([1, 1, 2] : List ℤ) 100 (by decide)

end Deirokay
